import Mathlib

/-!
Shallow embedding of `influxdb.go` from the `imcom/influxdb-go` repository,
an HTTP client library for the InfluxDB administrative and data API.

Modelling conventions:
* A `*http.Response` is modelled by its observable content: the HTTP status
  code and the full body text.  Reading an already-received body from the
  pure model cannot fail, so `ioutil.ReadAll` is modelled as a total read
  of the `body` field.
* A transport-level `error` value is modelled as `Option String`
  (`none` = nil error, `some msg` = non-nil error with message `msg`).
* Go's `*http.Response` argument of `responseToError` is `nil` exactly when
  the transport error is non-nil; `responseToError` returns such an error
  before touching the response, which the model reflects by ignoring the
  `response` argument on that path.
* `response.Body.Close()` calls are counted by separate instrumentation
  functions (`responseToErrorCloses`, `listSomethingCloses`): a `defer`red
  close runs when the function returns, so each `defer` that was registered
  on a path contributes one close on that path.
* Go's `encoding/json` is modelled by an executable JSON syntax tree
  (`JsonValue`), a marshaller and a parser, written to follow the stdlib
  behaviour the code relies on (key-sorted map marshalling, HTML escaping
  of `<`, `>`, `&`, the `null`-into-slice rule of `Unmarshal`, and the
  requirement that nothing but whitespace follows the top-level value).
* Each client method is split, exactly along the lines of the Go code, into
  the request it issues (`…Request` / `…Requests`) and the pure handler that
  consumes the `(response, transport error)` pair delivered by the
  transport (`listSomething_handle`, `query_handle`, `responseToError`).
-/

namespace Influxdb

/-- Left and right curly-brace characters, used when building JSON text. -/
def lbrace : Char := Char.ofNat 123

/-- Right curly-brace character. -/
def rbrace : Char := Char.ofNat 125

/-- Generic JSON value, the model of what `encoding/json` produces when
decoding into `interface{}` and consumes when marshalling.  Numbers are kept
as their source lexemes (Go decodes them to `float64`, which the claims never
inspect, so the lexeme is a faithful executable stand-in). -/
inductive JsonValue where
  | null : JsonValue
  | bool (b : Bool) : JsonValue
  | num (lexeme : String) : JsonValue
  | str (s : String) : JsonValue
  | arr (elems : List JsonValue) : JsonValue
  | obj (fields : List (String × JsonValue)) : JsonValue
deriving Repr

/-- A decoded JSON object record, the model of Go's `map[string]interface{}`.
The list order is the insertion order (Go maps are unordered; no claim
depends on order). -/
abbrev Record := List (String × JsonValue)

/-- Hexadecimal digit characters, lower case (as used by Go's JSON string
escaper). -/
def hexLower (n : Nat) : Char :=
  "0123456789abcdef".toList.getD n '0'

/-- Hexadecimal digit characters, upper case (as used by Go's URL escaper). -/
def hexUpper (n : Nat) : Char :=
  "0123456789ABCDEF".toList.getD n '0'

/-- Escape one character the way `encoding/json`'s marshaller does with its
default HTML escaping: `\"` and `\\` for quote and backslash, two-character
escapes for newline, carriage return and tab, `\u00xx` for other control
characters, `\u003c`, `\u003e`, `\u0026` for `<`, `>`, `&`; everything else
passes through. -/
def jsonEscapeChar (c : Char) : String :=
  if c = '"' then "\\\""
  else if c = '\\' then "\\\\"
  else if c = '\n' then "\\n"
  else if c = '\r' then "\\r"
  else if c = '\t' then "\\t"
  else if c.toNat < 32 then
    String.mk ['\\', 'u', '0', '0', hexLower (c.toNat / 16), hexLower (c.toNat % 16)]
  else if c = '<' then "\\u003c"
  else if c = '>' then "\\u003e"
  else if c = '&' then "\\u0026"
  else String.singleton c

/-- Marshal a string to JSON text, model of `encoding/json`'s quoted-string
encoder. -/
def marshalString (s : String) : String :=
  "\"" ++ String.join (s.toList.map jsonEscapeChar) ++ "\""

/-- Insert a field into a key-sorted field list (insertion sort step). -/
def insertFieldSorted (p : String × JsonValue) :
    List (String × JsonValue) → List (String × JsonValue)
  | [] => [p]
  | q :: qs => if p.1 < q.1 then p :: q :: qs else q :: insertFieldSorted p qs

/-- Sort object fields by key, the model of `encoding/json` marshalling a Go
map: map keys are emitted in sorted order. -/
def sortFields (fs : List (String × JsonValue)) : List (String × JsonValue) :=
  fs.foldr insertFieldSorted []

mutual

/-- Marshal a JSON value to text, model of `json.Marshal`.  Object fields are
emitted in the order of the field list; call sites that model marshalling of
a Go map sort the fields first (`sortFields`), matching the stdlib. -/
def jsonMarshalValue : JsonValue → String
  | .null => "null"
  | .bool true => "true"
  | .bool false => "false"
  | .num lexeme => lexeme
  | .str s => marshalString s
  | .arr elems => "[" ++ String.intercalate "," (jsonMarshalValues elems) ++ "]"
  | .obj fields =>
      String.singleton lbrace ++ String.intercalate "," (jsonMarshalFields fields) ++
        String.singleton rbrace

/-- Marshal each element of a JSON array. -/
def jsonMarshalValues : List JsonValue → List String
  | [] => []
  | v :: vs => jsonMarshalValue v :: jsonMarshalValues vs

/-- Marshal each `key:value` field of a JSON object. -/
def jsonMarshalFields : List (String × JsonValue) → List String
  | [] => []
  | (k, v) :: fs => (marshalString k ++ ":" ++ jsonMarshalValue v) :: jsonMarshalFields fs

end

/-- Marshal a Go `map[string]string` payload: values are strings and keys are
emitted sorted, as `json.Marshal` does for maps. -/
def marshalStringMap (fields : List (String × String)) : String :=
  jsonMarshalValue (.obj (sortFields (fields.map fun p => (p.1, .str p.2))))

/-- Marshal a Go `map[string]interface{}` payload: keys are emitted sorted. -/
def marshalRecordPayload (fields : Record) : String :=
  jsonMarshalValue (.obj (sortFields fields))

/-! ### HTTP model -/

/-- Observable content of a received `*http.Response`. -/
structure HttpResponse where
  statusCode : Nat
  body : String
deriving Repr, DecidableEq

/-- HTTP method of a request issued by the client. -/
inductive Method where
  | get : Method
  | post : Method
  | delete : Method
deriving Repr, DecidableEq

/-- An HTTP request as issued by the client: method, full URL, optional
content type and optional body text. -/
structure Request where
  method : Method
  url : String
  contentType : Option String
  body : Option String
deriving Repr, DecidableEq

/-! ### Client construction (`NewClient`) -/

/-- An injected `*http.Client` transport handle.  `defaultTransport` models
`http.DefaultClient`; `custom n` models any other caller-supplied transport,
distinguished by identity. -/
inductive HttpTransport where
  | defaultTransport : HttpTransport
  | custom (id : Nat) : HttpTransport
deriving Repr, DecidableEq

/-- The `ClientConfig` struct.  `httpClient = none` models a nil
`*http.Client` field. -/
structure ClientConfig where
  host : String
  username : String
  password : String
  database : String
  httpClient : Option HttpTransport
  isSecure : Bool
deriving Repr, DecidableEq

/-- The `Client` struct with its resolved configuration. -/
structure Client where
  host : String
  username : String
  password : String
  database : String
  httpClient : HttpTransport
  schema : String
deriving Repr, DecidableEq

/-- The package-level `defaults` value set up by `init()`: host
`localhost:8086`, user/password `root`/`root`, empty database,
`http.DefaultClient` transport.  Its `IsSecure` field is the Go zero value
`false`. -/
def defaults : ClientConfig :=
  { host := "localhost:8086", username := "root", password := "root",
    database := "", httpClient := some .defaultTransport, isSecure := false }

/-- The `getDefault` helper: substitute `defaultValue` for an empty string. -/
def getDefault (value defaultValue : String) : String :=
  if value = "" then defaultValue else value

/-- The `NewClient` constructor.  Go receives `*ClientConfig` and writes the
default transport into the caller's struct when its `HttpClient` field is
nil, so the model returns the (possibly mutated) config alongside the client;
the second component of the outer pair is the returned `error`, always nil in
the source. -/
def NewClient (config : ClientConfig) : (Client × ClientConfig) × Option String :=
  let host := getDefault config.host defaults.host
  let username := getDefault config.username defaults.username
  let passowrd := getDefault config.password defaults.password
  let database := getDefault config.database defaults.database
  let httpClient :=
    match config.httpClient with
    | none => HttpTransport.defaultTransport
    | some c => c
  let config' : ClientConfig :=
    { config with httpClient := some httpClient }
  let schema := if config'.isSecure then "https" else "http"
  ((⟨host, username, passowrd, database, httpClient, schema⟩, config'), none)

/-! ### URL construction -/

/-- The `getUrlWithUserAndPass` method:
`fmt.Sprintf("%s://%s%s?u=%s&p=%s", schema, host, path, username, password)`. -/
def Client.getUrlWithUserAndPass (self : Client) (path username password : String) :
    String :=
  self.schema ++ "://" ++ self.host ++ path ++ "?u=" ++ username ++ "&p=" ++ password

/-- The `getUrl` method: `getUrlWithUserAndPass` with the client's stored
credentials. -/
def Client.getUrl (self : Client) (path : String) : String :=
  self.getUrlWithUserAndPass path self.username self.password

/-! ### Response translation (`responseToError`) -/

/-- The error message built by
`fmt.Errorf("Server returned (%d): %s", statusCode, body)`. -/
def serverErrorMessage (statusCode : Nat) (body : String) : String :=
  "Server returned (" ++ toString statusCode ++ "): " ++ body

/-- The `responseToError` function: a non-nil transport error is returned
as-is; a status in [200,300) is success (`none`); otherwise the body is read
and wrapped in a descriptive error.  The `closeResponse` flag only affects
body closing, not the returned value, so it is unused here; the close
behaviour is modelled by `responseToErrorCloses`. -/
def responseToError (response : HttpResponse) (err : Option String)
    (closeResponse : Bool) : Option String :=
  match err with
  | some e => some e
  | none =>
    if 200 ≤ response.statusCode ∧ response.statusCode < 300 then
      none
    else
      some (serverErrorMessage response.statusCode response.body)

/-- Number of `response.Body.Close()` calls that run inside `responseToError`
on the path determined by `(err, closeResponse, statusCode)`:
* transport error: the function returns before any `defer` is registered
  (and in Go the response is nil on this path) — 0 closes;
* success status: only the `closeResponse`-guarded `defer` — 1 close if
  `closeResponse`, else 0;
* error status: the `closeResponse`-guarded `defer` plus the unconditional
  `defer` before the body read — 2 closes if `closeResponse`, else 1. -/
def responseToErrorCloses (statusCode : Nat) (err : Option String)
    (closeResponse : Bool) : Nat :=
  match err with
  | some _ => 0
  | none =>
    if 200 ≤ statusCode ∧ statusCode < 300 then
      if closeResponse then 1 else 0
    else
      (if closeResponse then 1 else 0) + 1

/-! ### JSON parsing (model of `json.Unmarshal`'s syntax phase) -/

/-- JSON whitespace characters. -/
def isJsonWs (c : Char) : Bool :=
  c = ' ' || c = '\t' || c = '\n' || c = '\r'

/-- Drop leading JSON whitespace. -/
def skipWs : List Char → List Char
  | [] => []
  | c :: cs => if isJsonWs c then skipWs cs else c :: cs

/-- Decimal digit test on a character. -/
def isDigitChar (c : Char) : Bool :=
  48 ≤ c.toNat && c.toNat ≤ 57

/-- Value of a hexadecimal digit character, either case. -/
def hexDigitVal (c : Char) : Option Nat :=
  if 48 ≤ c.toNat && c.toNat ≤ 57 then some (c.toNat - 48)
  else if 65 ≤ c.toNat && c.toNat ≤ 70 then some (c.toNat - 55)
  else if 97 ≤ c.toNat && c.toNat ≤ 102 then some (c.toNat - 87)
  else none

/-- Parse the body of a JSON string literal after the opening quote,
returning the decoded characters and the input remaining after the closing
quote.  Escapes follow `encoding/json`: the short escapes, `\u` with four hex
digits (an unpaired surrogate becomes U+FFFD; surrogate-pair combination is
not modelled, no claim touches it), and raw control characters are
rejected. -/
def parseStringBody : List Char → Except String (List Char × List Char)
  | [] => .error "unexpected end of JSON input"
  | c :: rest =>
    if c = '"' then .ok ([], rest)
    else if c = '\\' then
      match rest with
      | [] => .error "unexpected end of JSON input"
      | e :: rest' =>
        if e = '"' ∨ e = '\\' ∨ e = '/' then
          match parseStringBody rest' with
          | .ok (s, r) => .ok (e :: s, r)
          | .error msg => .error msg
        else if e = 'n' ∨ e = 't' ∨ e = 'r' ∨ e = 'b' ∨ e = 'f' then
          let d : Char :=
            if e = 'n' then '\n' else if e = 't' then '\t'
            else if e = 'r' then '\r' else if e = 'b' then Char.ofNat 8
            else Char.ofNat 12
          match parseStringBody rest' with
          | .ok (s, r) => .ok (d :: s, r)
          | .error msg => .error msg
        else if e = 'u' then
          match rest' with
          | h1 :: h2 :: h3 :: h4 :: rest'' =>
            match hexDigitVal h1, hexDigitVal h2, hexDigitVal h3, hexDigitVal h4 with
            | some a, some b, some c3, some d4 =>
              let n := 4096 * a + 256 * b + 16 * c3 + d4
              let ch := if 55296 ≤ n ∧ n < 57344 then Char.ofNat 65533 else Char.ofNat n
              match parseStringBody rest'' with
              | .ok (s, r) => .ok (ch :: s, r)
              | .error msg => .error msg
            | _, _, _, _ => .error "invalid character in \\u hexadecimal escape"
          | _ => .error "unexpected end of JSON input"
        else .error "invalid character in string escape code"
    else if c.toNat < 32 then .error "invalid character in string literal"
    else
      match parseStringBody rest with
      | .ok (s, r) => .ok (c :: s, r)
      | .error msg => .error msg

/-- Consume one or more decimal digits; `none` when the input does not start
with a digit. -/
def chompDigits1 : List Char → Option (List Char)
  | c :: t => if isDigitChar c then some (t.dropWhile isDigitChar) else none
  | [] => none

/-- Consume the digits of an exponent, after an optional sign. -/
def chompSigned : List Char → Option (List Char)
  | '+' :: t => chompDigits1 t
  | '-' :: t => chompDigits1 t
  | cs => chompDigits1 cs

/-- Consume an optional exponent part. -/
def chompExp : List Char → Option (List Char)
  | 'e' :: t => chompSigned t
  | 'E' :: t => chompSigned t
  | cs => some cs

/-- Consume an optional fraction part. -/
def chompFrac : List Char → Option (List Char)
  | '.' :: t => chompDigits1 t
  | cs => some cs

/-- Consume the integer part of a JSON number: `0`, or a nonzero digit
followed by digits. -/
def chompInt : List Char → Option (List Char)
  | '0' :: t => some t
  | cs => chompDigits1 cs

/-- Validate a JSON number lexeme against the grammar `encoding/json`
accepts: `-?(0|[1-9][0-9]*)(\.[0-9]+)?([eE][+-]?[0-9]+)?`. -/
def validNumberLexeme (cs : List Char) : Bool :=
  let cs₁ := match cs with | '-' :: t => t | t => t
  match chompInt cs₁ with
  | none => false
  | some r₁ =>
    match chompFrac r₁ with
    | none => false
    | some r₂ =>
      match chompExp r₂ with
      | none => false
      | some r₃ => r₃.isEmpty

/-- Characters that can make up a number lexeme; the parser takes the maximal
run of these and then validates it. -/
def isNumChar (c : Char) : Bool :=
  isDigitChar c || c = '-' || c = '+' || c = '.' || c = 'e' || c = 'E'

/-- Strip an expected literal tail (for `null`, `true`, `false`). -/
def stripLit (lit cs : List Char) : Option (List Char) :=
  if lit.isPrefixOf cs then some (cs.drop lit.length) else none

mutual

/-- Parse one JSON value, returning it with the remaining input.  The fuel
argument only bounds recursion depth; the top-level entry point supplies
enough for any input, so running out models nothing reachable. -/
def parseValue : Nat → List Char → Except String (JsonValue × List Char)
  | 0, _ => .error "JSON input nesting exceeds parser fuel"
  | fuel + 1, cs =>
    match skipWs cs with
    | [] => .error "unexpected end of JSON input"
    | c :: rest =>
      if c = 'n' then
        match stripLit ['u', 'l', 'l'] rest with
        | some r => .ok (.null, r)
        | none => .error "invalid character in literal null"
      else if c = 't' then
        match stripLit ['r', 'u', 'e'] rest with
        | some r => .ok (.bool true, r)
        | none => .error "invalid character in literal true"
      else if c = 'f' then
        match stripLit ['a', 'l', 's', 'e'] rest with
        | some r => .ok (.bool false, r)
        | none => .error "invalid character in literal false"
      else if c = '"' then
        match parseStringBody rest with
        | .ok (s, r) => .ok (.str (String.mk s), r)
        | .error msg => .error msg
      else if c = '[' then
        match skipWs rest with
        | ']' :: r => .ok (.arr [], r)
        | rest' =>
          match parseArrayElems fuel rest' with
          | .ok (vs, r) => .ok (.arr vs, r)
          | .error msg => .error msg
      else if c = lbrace then
        match skipWs rest with
        | d :: r =>
          if d = rbrace then .ok (.obj [], r)
          else
            match parseObjMembers fuel (d :: r) with
            | .ok (fs, r') => .ok (.obj fs, r')
            | .error msg => .error msg
        | [] => .error "unexpected end of JSON input"
      else if isNumChar c ∧ c ≠ '+' ∧ c ≠ '.' ∧ c ≠ 'e' ∧ c ≠ 'E' then
        let lex := (c :: rest).takeWhile isNumChar
        if validNumberLexeme lex then
          .ok (.num (String.mk lex), (c :: rest).dropWhile isNumChar)
        else .error "invalid number literal"
      else .error "invalid character looking for beginning of value"

/-- Parse the comma-separated elements of a non-empty JSON array up to the
closing bracket. -/
def parseArrayElems : Nat → List Char → Except String (List JsonValue × List Char)
  | 0, _ => .error "JSON input nesting exceeds parser fuel"
  | fuel + 1, cs =>
    match parseValue fuel cs with
    | .error msg => .error msg
    | .ok (v, rest) =>
      match skipWs rest with
      | ',' :: rest' =>
        match parseArrayElems fuel rest' with
        | .ok (vs, r) => .ok (v :: vs, r)
        | .error msg => .error msg
      | ']' :: rest' => .ok ([v], rest')
      | _ => .error "invalid character after array element"

/-- Parse the comma-separated `key : value` members of a non-empty JSON
object up to the closing brace. -/
def parseObjMembers : Nat → List Char → Except String (List (String × JsonValue) × List Char)
  | 0, _ => .error "JSON input nesting exceeds parser fuel"
  | fuel + 1, cs =>
    match skipWs cs with
    | '"' :: rest =>
      match parseStringBody rest with
      | .error msg => .error msg
      | .ok (k, rest') =>
        match skipWs rest' with
        | ':' :: rest'' =>
          match parseValue fuel rest'' with
          | .error msg => .error msg
          | .ok (v, rest₃) =>
            match skipWs rest₃ with
            | ',' :: rest₄ =>
              match parseObjMembers fuel rest₄ with
              | .ok (fs, r) => .ok ((String.mk k, v) :: fs, r)
              | .error msg => .error msg
            | d :: rest₄ =>
              if d = rbrace then .ok ([(String.mk k, v)], rest₄)
              else .error "invalid character after object key:value pair"
            | [] => .error "unexpected end of JSON input"
        | _ => .error "invalid character after object key"
    | _ => .error "invalid character looking for beginning of object key string"

end

/-- Parse a complete JSON document: one value, with nothing but whitespace
after it, as `json.Unmarshal` requires. -/
def parseJson (s : String) : Except String JsonValue :=
  let cs := s.toList
  match parseValue (2 * cs.length + 2) cs with
  | .error msg => .error msg
  | .ok (v, rest) =>
    match skipWs rest with
    | [] => .ok v
    | _ => .error "invalid character after top-level value"

/-! ### Decoding into Go values (model of `json.Unmarshal`'s store phase) -/

/-- Set a key in a record, overwriting an existing entry, as Go map
assignment does. -/
def recordSet (r : Record) (k : String) (v : JsonValue) : Record :=
  if r.any fun p => p.1 = k then r.map fun p => if p.1 = k then (k, v) else p
  else r ++ [(k, v)]

/-- Turn parsed object fields into a Go map: a duplicate key overwrites the
earlier entry. -/
def objToRecord (fs : List (String × JsonValue)) : Record :=
  fs.foldl (fun r p => recordSet r p.1 p.2) []

/-- Unmarshal one array element into `map[string]interface{}`: an object
fills the map; JSON `null` stores a nil map (no error, per `Unmarshal`'s
null rule); anything else is a type error. -/
def valueToRecord : JsonValue → Except String Record
  | .obj fs => .ok (objToRecord fs)
  | .null => .ok []
  | _ => .error "json: cannot unmarshal value into Go value of type map[string]interface"

/-- Unmarshal each element of the decoded array. -/
def valuesToRecords : List JsonValue → Except String (List Record)
  | [] => .ok []
  | v :: vs =>
    match valueToRecord v with
    | .error msg => .error msg
    | .ok r =>
      match valuesToRecords vs with
      | .error msg => .error msg
      | .ok rs => .ok (r :: rs)

/-- Model of `json.Unmarshal(body, &somethings)` with
`somethings : []map[string]interface{}`: a syntax error or a non-array,
non-null top-level value is an error; the JSON literal `null` stores a nil
slice with no error; an array is decoded element-wise. -/
def jsonUnmarshalRecords (body : String) : Except String (List Record) :=
  match parseJson body with
  | .error msg => .error msg
  | .ok .null => .ok []
  | .ok (.arr vs) => valuesToRecords vs
  | .ok _ => .error "json: cannot unmarshal value into Go value of type []map[string]interface"

/-- Pure handler part of `listSomething`: feed the `(response, transport
error)` pair delivered by `httpClient.Get` through `responseToError` with
`closeResponse = false`, then read and unmarshal the body.  A `some` result
of `responseToError` or of the unmarshal step is returned to the caller as
the error; the decoded records are returned otherwise. -/
def listSomething_handle (resp : HttpResponse) (err : Option String) :
    Except String (List Record) :=
  match responseToError resp err false with
  | some e => .error e
  | none => jsonUnmarshalRecords resp.body

/-- Total number of `Body.Close()` calls across one `listSomething` call:
those inside `responseToError` (with `closeResponse = false`) plus the
`defer resp.Body.Close()` in `listSomething` itself, which is registered
exactly when `responseToError` returned nil and runs on every later path
(read error, decode error, success). -/
def listSomethingCloses (resp : HttpResponse) (err : Option String) : Nat :=
  responseToErrorCloses resp.statusCode err false +
    match responseToError resp err false with
    | some _ => 0
    | none => 1

/-! ### URL query escaping (model of `net/url.QueryEscape`) -/

/-- UTF-8 bytes of a character, as natural numbers below 256. -/
def utf8Bytes (c : Char) : List Nat :=
  let n := c.toNat
  if n < 128 then [n]
  else if n < 2048 then [192 + n / 64, 128 + n % 64]
  else if n < 65536 then [224 + n / 4096, 128 + n / 64 % 64, 128 + n % 64]
  else [240 + n / 262144, 128 + n / 4096 % 64, 128 + n / 64 % 64, 128 + n % 64]

/-- UTF-8 byte sequence of a string. -/
def stringUtf8Bytes (s : String) : List Nat :=
  (s.toList.map utf8Bytes).flatten

/-- Characters `url.QueryEscape` leaves unescaped: ASCII letters, digits,
and `-`, `_`, `.`, `~`. -/
def isQueryUnescapedChar (c : Char) : Bool :=
  (65 ≤ c.toNat && c.toNat ≤ 90) || (97 ≤ c.toNat && c.toNat ≤ 122) ||
    (48 ≤ c.toNat && c.toNat ≤ 57) || c = '-' || c = '_' || c = '.' || c = '~'

/-- Percent-encode one byte with upper-case hexadecimal digits. -/
def percentEncodeByte (b : Nat) : String :=
  String.mk ['%', hexUpper (b / 16 % 16), hexUpper (b % 16)]

/-- Model of `url.QueryEscape`: a space becomes `+`, characters in the safe
set pass through, and every other UTF-8 byte is percent-encoded with
upper-case hex. -/
def queryEscape (s : String) : String :=
  String.join (s.toList.map fun c =>
    if c = ' ' then "+"
    else if isQueryUnescapedChar c then String.singleton c
    else String.join ((utf8Bytes c).map percentEncodeByte))

/-- Decode a query-encoded character sequence back to the byte sequence it
denotes: `+` is a space, `%XX` is the byte `XX`, a malformed percent escape
is rejected, anything else stands for its own UTF-8 bytes.  Two encodings of
the same text decode to the same byte list, which is how "equivalent correct
encoding" is made precise. -/
def unescapeQueryBytes : List Char → Option (List Nat)
  | [] => some []
  | '%' :: a :: b :: rest =>
    match hexDigitVal a, hexDigitVal b with
    | some x, some y => (unescapeQueryBytes rest).map fun bs => (16 * x + y) :: bs
    | _, _ => none
  | '%' :: _ => none
  | '+' :: rest => (unescapeQueryBytes rest).map fun bs => 32 :: bs
  | c :: rest => (unescapeQueryBytes rest).map fun bs => utf8Bytes c ++ bs

/-- Does `sub` occur as a contiguous substring of `s` (both as char lists)? -/
def listContains (sub : List Char) : List Char → Bool
  | [] => sub.isEmpty
  | c :: cs => sub.isPrefixOf (c :: cs) || listContains sub cs

/-! ### Time precision -/

/-- The `TimePrecision` string type. -/
abbrev TimePrecision := String

/-- The `Second` constant. -/
def Second : TimePrecision := "s"

/-- The `Millisecond` constant. -/
def Millisecond : TimePrecision := "m"

/-- The `Microsecond` constant. -/
def Microsecond : TimePrecision := "u"

/-! ### Series (wire format) -/

/-- Modelled from the spec: the `Series` struct is referenced by
`influxdb.go` (`WriteSeries`, `Query`) but defined elsewhere in the
repository, not under `src/`.  Spec section 3: "a named time-series payload
with column names and row values, used only as a wire-format object for
writes and query results; not interpreted or validated beyond JSON
structure". -/
structure Series where
  name : String
  columns : List String
  points : List (List JsonValue)
deriving Repr

/-- Modelled from the spec: the JSON wire form of one `Series`, a struct
marshalled with its fields in declaration order under lower-case keys. -/
def seriesToJson (s : Series) : JsonValue :=
  .obj [("name", .str s.name), ("columns", .arr (s.columns.map .str)),
    ("points", .arr (s.points.map .arr))]

/-- JSON text of one `Series`. -/
def marshalSeries (s : Series) : String :=
  jsonMarshalValue (seriesToJson s)

/-- Model of `json.Marshal(series)` for `series []*Series`: the whole
sequence becomes one JSON array. -/
def jsonMarshalSeriesList (series : List Series) : String :=
  jsonMarshalValue (.arr (series.map seriesToJson))

/-- Modelled from the spec: unmarshal a JSON value into one string field of
`Series`; an absent key or JSON `null` keeps the zero value, a non-string is
a type error. -/
def decodeStringField : Option JsonValue → Except String String
  | none => .ok ""
  | some (.str s) => .ok s
  | some .null => .ok ""
  | some _ => .error "json: cannot unmarshal value into Go string field"

/-- Modelled from the spec: unmarshal the `columns` field, a JSON array of
strings. -/
def decodeColumns : Option JsonValue → Except String (List String)
  | none => .ok []
  | some .null => .ok []
  | some (.arr vs) =>
    vs.foldr (fun v acc =>
      match decodeStringField (some v), acc with
      | .ok s, .ok ss => .ok (s :: ss)
      | .error msg, _ => .error msg
      | _, .error msg => .error msg) (.ok [])
  | some _ => .error "json: cannot unmarshal value into Go value of type []string"

/-- Modelled from the spec: unmarshal the `points` field, a JSON array of
rows, each row an array of arbitrary values (`[][]interface{}`); a `null`
row is a nil row. -/
def decodePoints : Option JsonValue → Except String (List (List JsonValue))
  | none => .ok []
  | some .null => .ok []
  | some (.arr vs) =>
    vs.foldr (fun v acc =>
      match v, acc with
      | .arr row, .ok rows => .ok (row :: rows)
      | .null, .ok rows => .ok ([] :: rows)
      | _, .error msg => .error msg
      | _, _ => .error "json: cannot unmarshal value into Go value of type []interface"
      ) (.ok [])
  | some _ => .error "json: cannot unmarshal value into Go value of type [][]interface"

/-- Modelled from the spec: unmarshal one element of `[]*Series`.  JSON
`null` yields a nil pointer, an object fills the struct (absent keys keep
zero values), anything else is a type error. -/
def decodeSeriesElem : JsonValue → Except String (Option Series)
  | .null => .ok none
  | .obj fs =>
    let r := objToRecord fs
    match decodeStringField (r.lookup "name") with
    | .error msg => .error msg
    | .ok name =>
      match decodeColumns (r.lookup "columns") with
      | .error msg => .error msg
      | .ok cols =>
        match decodePoints (r.lookup "points") with
        | .error msg => .error msg
        | .ok pts => .ok (some ⟨name, cols, pts⟩)
  | _ => .error "json: cannot unmarshal value into Go value of type influxdb.Series"

/-- Unmarshal each element of the decoded array of series. -/
def decodeSeriesElems : List JsonValue → Except String (List (Option Series))
  | [] => .ok []
  | v :: vs =>
    match decodeSeriesElem v with
    | .error msg => .error msg
    | .ok s =>
      match decodeSeriesElems vs with
      | .error msg => .error msg
      | .ok ss => .ok (s :: ss)

/-- Model of `json.Unmarshal(data, &series)` with `series []*Series`:
syntax errors and non-array, non-null top-level values are errors; `null`
stores a nil slice with no error. -/
def jsonUnmarshalSeriesList (body : String) : Except String (List (Option Series)) :=
  match parseJson body with
  | .error msg => .error msg
  | .ok .null => .ok []
  | .ok (.arr vs) => decodeSeriesElems vs
  | .ok _ => .error "json: cannot unmarshal value into Go value of type []*influxdb.Series"

/-! ### Client operations: the requests they issue -/

/-- The request issued by `CreateDatabase`: POST `/db` with payload
`map[string]string{"name": name}`. -/
def Client.createDatabaseRequest (self : Client) (name : String) : Request :=
  { method := .post, url := self.getUrl "/db",
    contentType := some "application/json",
    body := some (marshalStringMap [("name", name)]) }

/-- The request issued by `DeleteDatabase`: DELETE `/db/<name>`. -/
def Client.deleteDatabaseRequest (self : Client) (name : String) : Request :=
  { method := .delete, url := self.getUrl ("/db/" ++ name),
    contentType := none, body := none }

/-- The request issued by `GetDatabaseList`: GET `/db`. -/
def Client.getDatabaseListRequest (self : Client) : Request :=
  { method := .get, url := self.getUrl "/db", contentType := none, body := none }

/-- The request issued by `CreateClusterAdmin`: POST `/cluster_admins` with
payload `map[string]string{"name": name, "password": password}`. -/
def Client.createClusterAdminRequest (self : Client) (name password : String) : Request :=
  { method := .post, url := self.getUrl "/cluster_admins",
    contentType := some "application/json",
    body := some (marshalStringMap [("name", name), ("password", password)]) }

/-- The request issued by `UpdateClusterAdmin`: POST
`/cluster_admins/<name>` with payload `map[string]string{"password":
password}`. -/
def Client.updateClusterAdminRequest (self : Client) (name password : String) : Request :=
  { method := .post, url := self.getUrl ("/cluster_admins/" ++ name),
    contentType := some "application/json",
    body := some (marshalStringMap [("password", password)]) }

/-- The request issued by `DeleteClusterAdmin`: DELETE
`/cluster_admins/<name>`. -/
def Client.deleteClusterAdminRequest (self : Client) (name : String) : Request :=
  { method := .delete, url := self.getUrl ("/cluster_admins/" ++ name),
    contentType := none, body := none }

/-- The request issued by `GetClusterAdminList`: GET `/cluster_admins`. -/
def Client.getClusterAdminListRequest (self : Client) : Request :=
  { method := .get, url := self.getUrl "/cluster_admins", contentType := none, body := none }

/-- The request issued by `CreateDatabaseUser`: POST `/db/<db>/users` with
payload `map[string]string{"name": name, "password": password}`. -/
def Client.createDatabaseUserRequest (self : Client) (database name password : String) :
    Request :=
  { method := .post, url := self.getUrl ("/db/" ++ database ++ "/users"),
    contentType := some "application/json",
    body := some (marshalStringMap [("name", name), ("password", password)]) }

/-- The JSON payload built by `updateDatabaseUserCommon`: start from the
empty `map[string]interface{}` and add the `password` and `admin` keys
exactly when the corresponding pointer argument is non-nil. -/
def updateDatabaseUserPayload (password : Option String) (isAdmin : Option Bool) : Record :=
  let payload : Record := []
  let payload :=
    match password with
    | some p => payload ++ [("password", JsonValue.str p)]
    | none => payload
  match isAdmin with
  | some b => payload ++ [("admin", JsonValue.bool b)]
  | none => payload

/-- The request issued by `updateDatabaseUserCommon`: POST
`/db/<db>/users/<name>` with the partial payload. -/
def Client.updateDatabaseUserCommonRequest (self : Client) (database name : String)
    (password : Option String) (isAdmin : Option Bool) : Request :=
  { method := .post, url := self.getUrl ("/db/" ++ database ++ "/users/" ++ name),
    contentType := some "application/json",
    body := some (marshalRecordPayload (updateDatabaseUserPayload password isAdmin)) }

/-- The request issued by `UpdateDatabaseUser`: the common partial update
with only the password supplied. -/
def Client.updateDatabaseUserRequest (self : Client) (database name password : String) :
    Request :=
  self.updateDatabaseUserCommonRequest database name (some password) none

/-- The request issued by `DeleteDatabaseUser`: DELETE
`/db/<db>/users/<name>`. -/
def Client.deleteDatabaseUserRequest (self : Client) (database name : String) : Request :=
  { method := .delete, url := self.getUrl ("/db/" ++ database ++ "/users/" ++ name),
    contentType := none, body := none }

/-- The request issued by `GetDatabaseUserList`: GET `/db/<db>/users`. -/
def Client.getDatabaseUserListRequest (self : Client) (database : String) : Request :=
  { method := .get, url := self.getUrl ("/db/" ++ database ++ "/users"),
    contentType := none, body := none }

/-- The request issued by `AlterDatabasePrivilege`: the common partial
update with only the privilege flag supplied. -/
def Client.alterDatabasePrivilegeRequest (self : Client) (database name : String)
    (isAdmin : Bool) : Request :=
  self.updateDatabaseUserCommonRequest database name none (some isAdmin)

/-- URL suffix rendered from the options map by
`fmt.Sprintf("&%s=%s", name, value)` per entry (at most one entry is ever
passed, so Go's map iteration order does not matter). -/
def renderOptions (options : List (String × String)) : String :=
  String.join (options.map fun o => "&" ++ o.1 ++ "=" ++ o.2)

/-- The requests issued by `writeSeriesCommon`: exactly one POST of the
whole series list, marshalled as one JSON array, to
`/db/<database>/series` with the rendered options appended to the URL. -/
def Client.writeSeriesCommonRequests (self : Client) (series : List Series)
    (options : List (String × String)) : List Request :=
  [{ method := .post,
     url := self.getUrl ("/db/" ++ self.database ++ "/series") ++ renderOptions options,
     contentType := some "application/json",
     body := some (jsonMarshalSeriesList series) }]

/-- The requests issued by `WriteSeries`: `writeSeriesCommon` with nil
options. -/
def Client.writeSeriesRequests (self : Client) (series : List Series) : List Request :=
  self.writeSeriesCommonRequests series []

/-- The requests issued by `WriteSeriesWithTimePrecision`:
`writeSeriesCommon` with `map[string]string{"time_precision":
string(timePrecision)}`. -/
def Client.writeSeriesWithTimePrecisionRequests (self : Client) (series : List Series)
    (timePrecision : TimePrecision) : List Request :=
  self.writeSeriesCommonRequests series [("time_precision", timePrecision)]

/-- The URL built by `Query`: the base authenticated series URL, then
`&time_precision=<code>` when a precision was passed (Go variadic, first
element used), then `&q=<escaped query>`. -/
def Client.queryUrl (self : Client) (query : String) (precision : List TimePrecision) :
    String :=
  let escapedQuery := queryEscape query
  let url := self.getUrl ("/db/" ++ self.database ++ "/series")
  let url :=
    match precision with
    | [] => url
    | p :: _ => url ++ "&time_precision=" ++ p
  url ++ "&q=" ++ escapedQuery

/-- The request issued by `Query`: GET of the query URL. -/
def Client.queryRequest (self : Client) (query : String) (precision : List TimePrecision) :
    Request :=
  { method := .get, url := self.queryUrl query precision, contentType := none, body := none }

/-- The request issued by `Ping`: GET `/ping`. -/
def Client.pingRequest (self : Client) : Request :=
  { method := .get, url := self.getUrl "/ping", contentType := none, body := none }

/-- The request issued by `AuthenticateDatabaseUser`: GET
`/db/<db>/authenticate` with the explicitly supplied username and password
in place of the stored credentials. -/
def Client.authenticateDatabaseUserRequest (self : Client)
    (database username password : String) : Request :=
  { method := .get,
    url := self.getUrlWithUserAndPass ("/db/" ++ database ++ "/authenticate") username password,
    contentType := none, body := none }

/-- Pure handler part of `Query`: `responseToError` with
`closeResponse = false`, then read and unmarshal the body into `[]*Series`;
every `some`/`error` outcome is the caller's error. -/
def query_handle (resp : HttpResponse) (err : Option String) :
    Except String (List (Option Series)) :=
  match responseToError resp err false with
  | some e => .error e
  | none => jsonUnmarshalSeriesList resp.body

/-! ### Theorems -/

/-- Substring containment, witnessed by a decomposition of the enclosing
string. -/
def containsStr (s sub : String) : Prop :=
  ∃ pre post, s = pre ++ sub ++ post

/-- C1: response translation returns nil for every status in [200,300) with
no transport error, regardless of body; returns an error mentioning the
numeric status code and the full body for every status outside that range;
and returns a non-nil transport error as-is, independent of the response. -/
theorem responseToError_translation :
    (∀ (r : HttpResponse) (closeResponse : Bool),
      200 ≤ r.statusCode → r.statusCode < 300 →
      responseToError r none closeResponse = none) ∧
    (∀ (r : HttpResponse) (closeResponse : Bool),
      r.statusCode < 200 ∨ 300 ≤ r.statusCode →
      ∃ msg, responseToError r none closeResponse = some msg ∧
        containsStr msg (toString r.statusCode) ∧ containsStr msg r.body) ∧
    (∀ (r r' : HttpResponse) (e : String) (c c' : Bool),
      responseToError r (some e) c = some e ∧
      responseToError r (some e) c = responseToError r' (some e) c') := by
  refine ⟨?_, ?_, ?_⟩
  · intro r closeResponse h₁ h₂
    simp [responseToError, h₁, h₂]
  · intro r closeResponse h
    have hcond : ¬(200 ≤ r.statusCode ∧ r.statusCode < 300) := by omega
    refine ⟨serverErrorMessage r.statusCode r.body, ?_, ?_, ?_⟩
    · simp [responseToError, hcond]
    · refine ⟨"Server returned (", "): " ++ r.body, ?_⟩
      simp [serverErrorMessage, String.append_assoc]
    · refine ⟨"Server returned (" ++ toString r.statusCode ++ "): ", "", ?_⟩
      simp [serverErrorMessage, String.append_assoc, String.append_empty]
  · intro r r' e c c'
    exact ⟨rfl, rfl⟩

/-- Witness for C1 at concrete inputs: a 204 with a body, a 409 with body
`Database already exists`, and a transport error. -/
theorem responseToError_translation_witness :
    responseToError ⟨204, "ignored body"⟩ none true = none ∧
    (∃ msg, responseToError ⟨409, "Database already exists"⟩ none true = some msg ∧
      containsStr msg (toString (409 : Nat)) ∧ containsStr msg "Database already exists") ∧
    responseToError ⟨500, "x"⟩ (some "connection refused") true = some "connection refused" :=
  ⟨responseToError_translation.1 ⟨204, "ignored body"⟩ true (by decide) (by decide),
   responseToError_translation.2.1 ⟨409, "Database already exists"⟩ true (Or.inr (by decide)),
   (responseToError_translation.2.2 ⟨500, "x"⟩ ⟨0, ""⟩ "connection refused" true true).1⟩

/-- C2 counterexample: with `closeResponse = true` and a non-2xx status both
deferred `Body.Close()` calls run, so the body is closed twice, not exactly
once as the claim states. -/
theorem body_close_counterexample :
    responseToErrorCloses 500 none true = 2 ∧ ¬ responseToErrorCloses 500 none true = 1 := by
  decide

/-- C2 amended: on the transport-error path nothing is closed (the response
is nil there); with `closeResponse = true` the body is closed once on
success and twice on a non-2xx status; with `closeResponse = false` it is
closed once on a non-2xx status and left open on success, and across the
whole of `listSomething` (the opt-out caller, which closes after reading)
the total is exactly one close whenever a response was received, and zero on
a transport error. -/
theorem body_close_accounting :
    (∀ (s : Nat) (e : String) (c : Bool), responseToErrorCloses s (some e) c = 0) ∧
    (∀ s : Nat, 200 ≤ s → s < 300 →
      responseToErrorCloses s none true = 1 ∧ responseToErrorCloses s none false = 0) ∧
    (∀ s : Nat, s < 200 ∨ 300 ≤ s →
      responseToErrorCloses s none true = 2 ∧ responseToErrorCloses s none false = 1) ∧
    (∀ r : HttpResponse, listSomethingCloses r none = 1) ∧
    (∀ (r : HttpResponse) (e : String), listSomethingCloses r (some e) = 0) := by
  refine ⟨?_, ?_, ?_, ?_, ?_⟩
  · intro s e c; rfl
  · intro s h₁ h₂
    have h : 200 ≤ s ∧ s < 300 := ⟨h₁, h₂⟩
    exact ⟨by simp [responseToErrorCloses, h], by simp [responseToErrorCloses, h]⟩
  · intro s h
    have h' : ¬(200 ≤ s ∧ s < 300) := by omega
    exact ⟨by simp [responseToErrorCloses, h'], by simp [responseToErrorCloses, h']⟩
  · intro r
    by_cases h : 200 ≤ r.statusCode ∧ r.statusCode < 300 <;>
      simp [listSomethingCloses, responseToErrorCloses, responseToError, h]
  · intro r e; rfl

/-- Witness for C2's amended accounting at concrete inputs. -/
theorem body_close_accounting_witness :
    responseToErrorCloses 204 none true = 1 ∧
    responseToErrorCloses 500 none false = 1 ∧
    responseToErrorCloses 500 (some "net down") true = 0 ∧
    listSomethingCloses ⟨500, "boom"⟩ none = 1 :=
  ⟨(body_close_accounting.2.1 204 (by decide) (by decide)).1,
   (body_close_accounting.2.2.1 500 (Or.inr (by decide))).2,
   body_close_accounting.1 500 "net down" true,
   body_close_accounting.2.2.2.1 ⟨500, "boom"⟩⟩

/-- C3: `NewClient` never returns an error; an all-empty configuration
yields host `localhost:8086`, username `root`, password `root`, scheme
`http`; `IsSecure = true` selects `https`; each empty string field is
replaced by its fixed default and each non-empty field is kept verbatim. -/
theorem NewClient_never_fails_and_defaults :
    (∀ config : ClientConfig, (NewClient config).2 = none) ∧
    ((NewClient ⟨"", "", "", "", none, false⟩).1.1 =
      ⟨"localhost:8086", "root", "root", "", .defaultTransport, "http"⟩) ∧
    (∀ config : ClientConfig, config.isSecure = true →
      ((NewClient config).1.1).schema = "https") ∧
    (∀ config : ClientConfig, config.isSecure = false →
      ((NewClient config).1.1).schema = "http") ∧
    (∀ config : ClientConfig,
      (config.host = "" → ((NewClient config).1.1).host = "localhost:8086") ∧
      (config.host ≠ "" → ((NewClient config).1.1).host = config.host) ∧
      (config.username = "" → ((NewClient config).1.1).username = "root") ∧
      (config.username ≠ "" → ((NewClient config).1.1).username = config.username) ∧
      (config.password = "" → ((NewClient config).1.1).password = "root") ∧
      (config.password ≠ "" → ((NewClient config).1.1).password = config.password) ∧
      (config.database = "" → ((NewClient config).1.1).database = "") ∧
      (config.database ≠ "" → ((NewClient config).1.1).database = config.database)) := by
  refine ⟨fun config => rfl, rfl, ?_, ?_, ?_⟩
  · intro config h; simp [NewClient, h]
  · intro config h; simp [NewClient, h]
  · intro config
    refine ⟨?_, ?_, ?_, ?_, ?_, ?_, ?_, ?_⟩ <;>
      intro h <;> simp [NewClient, getDefault, defaults, h]

/-- Witness for C3 at concrete configurations. -/
theorem NewClient_never_fails_and_defaults_witness :
    (NewClient ⟨"", "", "", "", none, true⟩).1.1.schema = "https" ∧
    (NewClient ⟨"h:1", "u", "pw", "db", none, false⟩).1.1.schema = "http" ∧
    (NewClient ⟨"h:1", "u", "pw", "db", none, false⟩).1.1.host = "h:1" ∧
    (NewClient ⟨"", "u", "pw", "db", none, false⟩).1.1.host = "localhost:8086" ∧
    (NewClient ⟨"h:1", "u", "pw", "db", none, false⟩).1.1.username = "u" :=
  ⟨NewClient_never_fails_and_defaults.2.2.1 ⟨"", "", "", "", none, true⟩ rfl,
   NewClient_never_fails_and_defaults.2.2.2.1 ⟨"h:1", "u", "pw", "db", none, false⟩ rfl,
   (NewClient_never_fails_and_defaults.2.2.2.2 ⟨"h:1", "u", "pw", "db", none, false⟩).2.1
     (by decide),
   (NewClient_never_fails_and_defaults.2.2.2.2 ⟨"", "u", "pw", "db", none, false⟩).1 rfl,
   (NewClient_never_fails_and_defaults.2.2.2.2 ⟨"h:1", "u", "pw", "db", none, false⟩).2.2.2.1
     (by decide)⟩

/-- C10: `NewClient` writes the default transport into the caller's config
exactly when the supplied `HttpClient` field is nil, and leaves every other
field of the caller's config unchanged. -/
theorem NewClient_mutates_only_httpClient :
    (∀ config : ClientConfig, config.httpClient = none →
      (NewClient config).1.2 = { config with httpClient := some .defaultTransport }) ∧
    (∀ (config : ClientConfig) (t : HttpTransport), config.httpClient = some t →
      (NewClient config).1.2 = config) ∧
    (∀ config : ClientConfig,
      (NewClient config).1.2.host = config.host ∧
      (NewClient config).1.2.username = config.username ∧
      (NewClient config).1.2.password = config.password ∧
      (NewClient config).1.2.database = config.database ∧
      (NewClient config).1.2.isSecure = config.isSecure) := by
  refine ⟨?_, ?_, ?_⟩
  · intro config h
    rcases config with ⟨h₀, u, p, d, hc, s⟩
    cases h
    rfl
  · intro config t h
    rcases config with ⟨h₀, u, p, d, hc, s⟩
    cases h
    rfl
  · intro config
    rcases config with ⟨h₀, u, p, d, hc, s⟩
    cases hc <;> exact ⟨rfl, rfl, rfl, rfl, rfl⟩

/-- Witness for C10 at concrete configurations. -/
theorem NewClient_mutates_only_httpClient_witness :
    (NewClient ⟨"h", "u", "p", "d", none, false⟩).1.2 =
      ⟨"h", "u", "p", "d", some .defaultTransport, false⟩ ∧
    (NewClient ⟨"h", "u", "p", "d", some (.custom 7), false⟩).1.2 =
      ⟨"h", "u", "p", "d", some (.custom 7), false⟩ :=
  ⟨NewClient_mutates_only_httpClient.1 ⟨"h", "u", "p", "d", none, false⟩ rfl,
   NewClient_mutates_only_httpClient.2.1 ⟨"h", "u", "p", "d", some (.custom 7), false⟩
     (.custom 7) rfl⟩

/-- C4: every built URL has the form
`<scheme>://<host><path>?u=<username>&p=<password>`; every operation routes
through `getUrl` with the client's stored credentials, except
`AuthenticateDatabaseUser`, which substitutes the explicitly supplied
username and password. -/
theorem url_construction :
    (∀ (self : Client) (path : String),
      self.getUrl path =
        self.schema ++ "://" ++ self.host ++ path ++ "?u=" ++ self.username ++
          "&p=" ++ self.password) ∧
    (∀ (self : Client) (path username password : String),
      self.getUrlWithUserAndPass path username password =
        self.schema ++ "://" ++ self.host ++ path ++ "?u=" ++ username ++
          "&p=" ++ password) ∧
    (∀ (self : Client) (name database password query : String) (isAdmin : Bool)
        (series : List Series),
      (self.createDatabaseRequest name).url = self.getUrl "/db" ∧
      (self.deleteDatabaseRequest name).url = self.getUrl ("/db/" ++ name) ∧
      self.getDatabaseListRequest.url = self.getUrl "/db" ∧
      (self.createClusterAdminRequest name password).url = self.getUrl "/cluster_admins" ∧
      (self.updateClusterAdminRequest name password).url =
        self.getUrl ("/cluster_admins/" ++ name) ∧
      (self.deleteClusterAdminRequest name).url = self.getUrl ("/cluster_admins/" ++ name) ∧
      self.getClusterAdminListRequest.url = self.getUrl "/cluster_admins" ∧
      (self.createDatabaseUserRequest database name password).url =
        self.getUrl ("/db/" ++ database ++ "/users") ∧
      (self.updateDatabaseUserRequest database name password).url =
        self.getUrl ("/db/" ++ database ++ "/users/" ++ name) ∧
      (self.deleteDatabaseUserRequest database name).url =
        self.getUrl ("/db/" ++ database ++ "/users/" ++ name) ∧
      (self.getDatabaseUserListRequest database).url =
        self.getUrl ("/db/" ++ database ++ "/users") ∧
      (self.alterDatabasePrivilegeRequest database name isAdmin).url =
        self.getUrl ("/db/" ++ database ++ "/users/" ++ name) ∧
      (self.writeSeriesRequests series).map Request.url =
        [self.getUrl ("/db/" ++ self.database ++ "/series")] ∧
      (self.queryRequest query []).url =
        self.getUrl ("/db/" ++ self.database ++ "/series") ++ "&q=" ++ queryEscape query ∧
      self.pingRequest.url = self.getUrl "/ping") ∧
    (∀ (self : Client) (database username password : String),
      (self.authenticateDatabaseUserRequest database username password).url =
        self.getUrlWithUserAndPass ("/db/" ++ database ++ "/authenticate") username password ∧
      (self.authenticateDatabaseUserRequest database username password).url =
        self.schema ++ "://" ++ self.host ++ "/db/" ++ database ++ "/authenticate" ++
          "?u=" ++ username ++ "&p=" ++ password) := by
  refine ⟨fun self path => rfl, fun self path username password => rfl, ?_, ?_⟩
  · intro self name database password query isAdmin series
    refine ⟨rfl, rfl, rfl, rfl, rfl, rfl, rfl, rfl, rfl, rfl, rfl, rfl, ?_, rfl, rfl⟩
    simp [Client.writeSeriesRequests, Client.writeSeriesCommonRequests, renderOptions,
      String.append_empty, String.join]
  · intro self database username password
    refine ⟨rfl, ?_⟩
    simp [Client.authenticateDatabaseUserRequest, Client.getUrlWithUserAndPass,
      String.append_assoc]

/-- C9: database and user names are concatenated verbatim into the URL path
with no escaping, including names containing `/` or `?`; only the free-text
query value of the query endpoint is percent-encoded. -/
theorem path_segments_not_escaped :
    (∀ (self : Client) (name : String),
      (self.deleteDatabaseRequest name).url =
        self.schema ++ "://" ++ self.host ++ "/db/" ++ name ++ "?u=" ++
          self.username ++ "&p=" ++ self.password) ∧
    (∀ (self : Client) (name password : String),
      (self.updateClusterAdminRequest name password).url =
        self.schema ++ "://" ++ self.host ++ "/cluster_admins/" ++ name ++ "?u=" ++
          self.username ++ "&p=" ++ self.password) ∧
    (∀ (self : Client) (name : String),
      (self.deleteClusterAdminRequest name).url =
        self.schema ++ "://" ++ self.host ++ "/cluster_admins/" ++ name ++ "?u=" ++
          self.username ++ "&p=" ++ self.password) ∧
    (∀ (self : Client) (database name password : String),
      (self.createDatabaseUserRequest database name password).url =
        self.schema ++ "://" ++ self.host ++ "/db/" ++ database ++ "/users" ++ "?u=" ++
          self.username ++ "&p=" ++ self.password) ∧
    (∀ (self : Client) (database name : String) (password : Option String)
        (isAdmin : Option Bool),
      (self.updateDatabaseUserCommonRequest database name password isAdmin).url =
        self.schema ++ "://" ++ self.host ++ "/db/" ++ database ++ "/users/" ++ name ++
          "?u=" ++ self.username ++ "&p=" ++ self.password) ∧
    (∀ (self : Client) (database name : String),
      (self.deleteDatabaseUserRequest database name).url =
        self.schema ++ "://" ++ self.host ++ "/db/" ++ database ++ "/users/" ++ name ++
          "?u=" ++ self.username ++ "&p=" ++ self.password) ∧
    (∀ (self : Client) (database username password : String),
      (self.authenticateDatabaseUserRequest database username password).url =
        self.schema ++ "://" ++ self.host ++ "/db/" ++ database ++ "/authenticate" ++
          "?u=" ++ username ++ "&p=" ++ password) ∧
    (∀ (self : Client) (query : String),
      self.queryUrl query [] =
        self.schema ++ "://" ++ self.host ++ "/db/" ++ self.database ++ "/series" ++
          "?u=" ++ self.username ++ "&p=" ++ self.password ++ "&q=" ++ queryEscape query) ∧
    ((Client.deleteDatabaseRequest
        ⟨"localhost:8086", "root", "root", "", .defaultTransport, "http"⟩ "a/b?c").url =
      "http://localhost:8086/db/a/b?c?u=root&p=root") := by
  refine ⟨?_, ?_, ?_, ?_, ?_, ?_, ?_, ?_, by decide⟩ <;>
    intros <;>
    simp [Client.deleteDatabaseRequest, Client.updateClusterAdminRequest,
      Client.deleteClusterAdminRequest, Client.createDatabaseUserRequest,
      Client.updateDatabaseUserCommonRequest, Client.deleteDatabaseUserRequest,
      Client.authenticateDatabaseUserRequest, Client.queryUrl, Client.getUrl,
      Client.getUrlWithUserAndPass, String.append_assoc]

/-- C5: the partial-update payload contains exactly the supplied optional
fields: only `password` when only a password is given, only `admin` when
only the privilege flag is given (as `AlterDatabasePrivilege` supplies by
delegation), and the empty object when neither is given. -/
theorem partial_update_payload :
    (∀ p : String, updateDatabaseUserPayload (some p) none =
      [("password", JsonValue.str p)]) ∧
    (∀ b : Bool, updateDatabaseUserPayload none (some b) =
      [("admin", JsonValue.bool b)]) ∧
    (updateDatabaseUserPayload none none = []) ∧
    (∀ p : String, "admin" ∉ (updateDatabaseUserPayload (some p) none).map Prod.fst) ∧
    (∀ b : Bool, "password" ∉ (updateDatabaseUserPayload none (some b)).map Prod.fst) ∧
    (∀ (self : Client) (database name : String) (isAdmin : Bool),
      self.alterDatabasePrivilegeRequest database name isAdmin =
        self.updateDatabaseUserCommonRequest database name none (some isAdmin)) ∧
    (∀ (self : Client) (database name : String) (isAdmin : Bool),
      (self.alterDatabasePrivilegeRequest database name isAdmin).body =
        some (marshalRecordPayload [("admin", JsonValue.bool isAdmin)])) ∧
    (∀ (self : Client) (database name p : String),
      (self.updateDatabaseUserRequest database name p).body =
        some (marshalRecordPayload [("password", JsonValue.str p)])) ∧
    (marshalRecordPayload (updateDatabaseUserPayload (some "secret") none) =
      "\x7b\"password\":\"secret\"\x7d") ∧
    (marshalRecordPayload (updateDatabaseUserPayload none (some true)) =
      "\x7b\"admin\":true\x7d") ∧
    (marshalRecordPayload (updateDatabaseUserPayload none none) = "\x7b\x7d") := by
  refine ⟨fun p => rfl, fun b => rfl, rfl, ?_, ?_, fun self database name isAdmin => rfl,
    fun self database name isAdmin => rfl, fun self database name p => rfl,
    by decide, by decide, by decide⟩
  · intro p
    simp [updateDatabaseUserPayload]
  · intro b
    simp [updateDatabaseUserPayload]

/-- C6: `Query` appends the optional precision first and then the escaped
query text to the base authenticated URL; with precision `s` and query text
`a b=c` the suffix is `&time_precision=s&q=a+b%3Dc`, where `a+b%3Dc` is the
standard query encoding of `a b=c` (it denotes the same bytes as the
spec's `a%20b%3Dc`, as the decodings show); with no precision no
`time_precision` parameter appears. -/
theorem query_url_encoding :
    (∀ (self : Client) (query : String) (p : TimePrecision) (ps : List TimePrecision),
      self.queryUrl query (p :: ps) =
        self.getUrl ("/db/" ++ self.database ++ "/series") ++ "&time_precision=" ++ p ++
          "&q=" ++ queryEscape query) ∧
    (∀ (self : Client) (query : String),
      self.queryUrl query [] =
        self.getUrl ("/db/" ++ self.database ++ "/series") ++ "&q=" ++ queryEscape query) ∧
    (queryEscape "a b=c" = "a+b%3Dc") ∧
    (unescapeQueryBytes "a+b%3Dc".toList = some (stringUtf8Bytes "a b=c")) ∧
    (unescapeQueryBytes "a%20b%3Dc".toList = some (stringUtf8Bytes "a b=c")) ∧
    (Client.queryUrl ⟨"localhost:8086", "root", "root", "mydb", .defaultTransport, "http"⟩
        "a b=c" [Second] =
      "http://localhost:8086/db/mydb/series?u=root&p=root&time_precision=s&q=a+b%3Dc") ∧
    (listContains "time_precision".toList
      (Client.queryUrl ⟨"localhost:8086", "root", "root", "mydb", .defaultTransport, "http"⟩
        "a b=c" []).toList = false) :=
  ⟨fun self query p ps => rfl, fun self query => rfl, by decide, by decide, by decide,
    by decide, by decide⟩

/-- Marshalling the mapped series list element-wise agrees with
`marshalSeries`. -/
theorem jsonMarshalValues_map_seriesToJson (series : List Series) :
    jsonMarshalValues (series.map seriesToJson) = series.map marshalSeries := by
  induction series with
  | nil => rfl
  | cons s ss ih => simp [jsonMarshalValues, marshalSeries, ih]

/-- Joining literals of the options suffix. -/
theorem renderOptions_time_precision (tp : TimePrecision) :
    renderOptions [("time_precision", tp)] = "&time_precision=" ++ tp := by
  have h : ("&" ++ "time_precision" ++ "=" : String) = "&time_precision=" := by decide
  have h₂ : renderOptions [("time_precision", tp)] = "&" ++ "time_precision" ++ "=" ++ tp := by
    simp [renderOptions, String.join]
  rw [h₂, ← h]

/-- C8: `WriteSeries` and `WriteSeriesWithTimePrecision` issue exactly one
POST to the client database's series endpoint whose body is the whole input
sequence marshalled as one JSON array; the URL carries `&time_precision=<code>`
exactly when a precision was supplied. -/
theorem writeSeries_one_post :
    (∀ (self : Client) (series : List Series),
      self.writeSeriesRequests series =
        [{ method := .post,
           url := self.getUrl ("/db/" ++ self.database ++ "/series"),
           contentType := some "application/json",
           body := some ("[" ++ String.intercalate "," (series.map marshalSeries) ++ "]") }]) ∧
    (∀ (self : Client) (series : List Series) (tp : TimePrecision),
      self.writeSeriesWithTimePrecisionRequests series tp =
        [{ method := .post,
           url := self.getUrl ("/db/" ++ self.database ++ "/series") ++
             "&time_precision=" ++ tp,
           contentType := some "application/json",
           body := some ("[" ++ String.intercalate "," (series.map marshalSeries) ++ "]") }]) ∧
    (∀ (self : Client) (series : List Series) (tp : TimePrecision),
      (self.writeSeriesRequests series).length = 1 ∧
      (self.writeSeriesWithTimePrecisionRequests series tp).length = 1) ∧
    (listContains "time_precision".toList
      (((Client.writeSeriesRequests
        ⟨"localhost:8086", "root", "root", "mydb", .defaultTransport, "http"⟩
        [⟨"t", ["v"], [[JsonValue.num "1"]]⟩]).map Request.url).headD "").toList = false) ∧
    (listContains "time_precision".toList
      (((Client.writeSeriesWithTimePrecisionRequests
        ⟨"localhost:8086", "root", "root", "mydb", .defaultTransport, "http"⟩
        [⟨"t", ["v"], [[JsonValue.num "1"]]⟩] Second).map Request.url).headD "").toList
      = true) := by
  refine ⟨?_, ?_, fun self series tp => ⟨rfl, rfl⟩, by decide, by decide⟩
  · intro self series
    simp [Client.writeSeriesRequests, Client.writeSeriesCommonRequests, renderOptions,
      String.join, String.append_empty, jsonMarshalSeriesList, jsonMarshalValue,
      jsonMarshalValues_map_seriesToJson]
  · intro self series tp
    simp [Client.writeSeriesWithTimePrecisionRequests, Client.writeSeriesCommonRequests,
      renderOptions_time_precision, jsonMarshalSeriesList, jsonMarshalValue,
      jsonMarshalValues_map_seriesToJson, String.append_assoc]

/-- C7 counterexample: a 200 response whose body is the JSON literal `null`
is not an array of records, yet `listSomething` reports no error and returns
a silently empty list, because `json.Unmarshal` stores `null` into a slice
as nil with no error. -/
theorem list_decode_null_counterexample :
    listSomething_handle ⟨200, "null"⟩ none = .ok [] ∧
    parseJson "null" = .ok JsonValue.null ∧
    (∀ e : String, listSomething_handle ⟨200, "null"⟩ none ≠ .error e) :=
  ⟨rfl, rfl, fun e h =>
    Except.noConfusion
      ((rfl : (Except.ok [] : Except String (List Record)) =
        listSomething_handle ⟨200, "null"⟩ none).trans h)⟩

/-- C7 amended: after a successful status the body is JSON-decoded and any
decode failure — malformed JSON, or a JSON value that is neither an array
nor `null` where an array of records is expected, or an array element of the
wrong type — is returned to the caller as an error, never a silent empty
list, with one exception: the JSON literal `null` (at top level, and as a
list element) decodes silently to an empty/nil value with no error;
`[{"name":"root"}]` decodes to exactly one record mapping `name` to
`root`. -/
theorem list_and_query_decode :
    (∀ r : HttpResponse, 200 ≤ r.statusCode → r.statusCode < 300 →
      listSomething_handle r none = jsonUnmarshalRecords r.body ∧
      query_handle r none = jsonUnmarshalSeriesList r.body) ∧
    (jsonUnmarshalRecords "[\x7b\"name\":\"root\"\x7d]" =
      .ok [[("name", JsonValue.str "root")]]) ∧
    (listSomething_handle ⟨200, "[\x7b\"name\":\"root\"\x7d]"⟩ none =
      .ok [[("name", JsonValue.str "root")]]) ∧
    (∃ e, jsonUnmarshalRecords "5" = .error e) ∧
    (∃ e, jsonUnmarshalRecords "\"root\"" = .error e) ∧
    (∃ e, jsonUnmarshalRecords "[5]" = .error e) ∧
    (∃ e, jsonUnmarshalRecords "[\x7b\"name\":" = .error e) ∧
    (jsonUnmarshalRecords "null" = .ok []) ∧
    (∃ e, jsonUnmarshalSeriesList "\x7b\x7d" = .error e) ∧
    (∃ e, jsonUnmarshalSeriesList "not json" = .error e) ∧
    (∀ (r : HttpResponse) (e : String),
      listSomething_handle r (some e) = .error e ∧ query_handle r (some e) = .error e) ∧
    (∀ r : HttpResponse, r.statusCode < 200 ∨ 300 ≤ r.statusCode →
      listSomething_handle r none =
        .error (serverErrorMessage r.statusCode r.body) ∧
      query_handle r none = .error (serverErrorMessage r.statusCode r.body)) := by
  refine ⟨?_, rfl, rfl, ⟨_, rfl⟩, ⟨_, rfl⟩, ⟨_, rfl⟩, ⟨_, rfl⟩, rfl,
    ⟨_, rfl⟩, ⟨_, rfl⟩, fun r e => ⟨rfl, rfl⟩, ?_⟩
  · intro r h₁ h₂
    have h : 200 ≤ r.statusCode ∧ r.statusCode < 300 := ⟨h₁, h₂⟩
    constructor <;> simp [listSomething_handle, query_handle, responseToError, h]
  · intro r h
    have h' : ¬(200 ≤ r.statusCode ∧ r.statusCode < 300) := by omega
    constructor <;> simp [listSomething_handle, query_handle, responseToError, h']

/-- Witness for C7's amended decode behaviour at concrete inputs. -/
theorem list_and_query_decode_witness :
    listSomething_handle ⟨200, "[]"⟩ none = jsonUnmarshalRecords "[]" ∧
    query_handle ⟨200, "[]"⟩ none = jsonUnmarshalSeriesList "[]" ∧
    listSomething_handle ⟨500, "oops"⟩ none =
      .error (serverErrorMessage 500 "oops") :=
  ⟨(list_and_query_decode.1 ⟨200, "[]"⟩ (by decide) (by decide)).1,
   (list_and_query_decode.1 ⟨200, "[]"⟩ (by decide) (by decide)).2,
   (list_and_query_decode.2.2.2.2.2.2.2.2.2.2.2 ⟨500, "oops"⟩ (Or.inr (by decide))).1⟩

end Influxdb
